import Mathlib

/-!
Verification development for the symbolic tensor / computation-graph layer
(src/src/core/tensor/interface.ts of YLeight/nodejs-tensorflow).

The repository ships the Tensor interface as a TypeScript declaration file:
method signatures plus documentation comments, with no executable
implementation under src/.  The embedding below therefore models the
behaviour of the operator algebra from the specification's contracts
(sections 3, 4.1 and 8 of the design spec), refined by the dtype rules
written in the interface's own doc comments where those are more precise.
The declared signatures themselves (method names, parameter and return
types) are taken directly from interface.ts.
-/

namespace TF

/-- Modelled from the spec: the element dtypes the operator algebra
distinguishes (spec sections 3 and 6; the dtype registry itself is external,
the core needs only equality and the applicability gates below).  The
constructor set is the one named by the interface's doc comments. -/
inductive DType
  | float32
  | float64
  | int32
  | int64
  | complex64
  | complex128
  | bool
  | string
  deriving DecidableEq, Repr

/-- Modelled from the spec: a TensorShape is an ordered sequence of dimension
sizes, each either a known non-negative integer (`some n`) or unknown
(`none`); the whole sequence may be rank-unknown (`dims = none`)
(spec section 3, TensorShape). -/
structure TensorShape where
  dims : Option (List (Option Nat))
  deriving DecidableEq, Repr

/-- Modelled from the spec: the construction-time error taxonomy of
spec section 7. -/
inductive TfError
  | typeError
  | shapeMismatch
  | rankError
  | invalidArgument
  | graphMismatch
  | invalidIndex
  | dtypeMismatch
  | duplicateName
  deriving DecidableEq, Repr

/-- Modelled from the spec: a Graph as an identity (ownership context); the
claims need only Graph equality (spec section 3, Graph). -/
structure Graph where
  id : Nat
  deriving DecidableEq, Repr

/-- Modelled from the spec: the type tag recording which algebra function
created an Operation (spec section 3, Operation). -/
inductive OpType
  | addOp
  | subOp
  | mulOp
  | divOp
  | floorDivOp
  | modOp
  | powOp
  | andOp
  | orOp
  | xorOp
  | trueDivOp
  | absOp
  | negOp
  | invertOp
  | matMulOp
  | sparseMatMulOp
  deriving DecidableEq, Repr

/-- Modelled from the spec: a Tensor is a handle identifying one output slot
of an Operation, never a value container; it carries its dtype, best-known
shape and owning graph (spec section 3, Tensor).  `opId` stands for the
identity of the producing Operation. -/
structure Tensor where
  opId : Nat
  valueIndex : Nat
  dtype : DType
  shape : TensorShape
  graph : Graph
  deriving DecidableEq, Repr

/-- Modelled from the spec: an Operation is a graph node with a type tag,
ordered input Tensors, ordered output (dtype, shape) pairs and an owning
Graph (spec section 3, Operation). -/
structure Operation where
  opType : OpType
  inputs : List Tensor
  outputs : List (DType × TensorShape)
  graph : Graph
  deriving DecidableEq, Repr

/-- Modelled from the spec: broadcast of a single pair of aligned dimensions
(spec section 4.1 step 2): compatible when equal, when either is unknown, or
when either equals 1 (which stretches to the other); otherwise
`ShapeMismatch`.  An unknown dimension paired with a known `d` yields `d`
when `d` is not 1 (the unknown side must then be 1 or `d`), and stays
unknown when `d = 1` (the unknown side could be anything). -/
def broadcastDim : Option Nat → Option Nat → Except TfError (Option Nat)
  | none, none => .ok none
  | none, some b => .ok (if b = 1 then none else some b)
  | some a, none => .ok (if a = 1 then none else some a)
  | some a, some b =>
    if a = b then .ok (some a)
    else if a = 1 then .ok (some b)
    else if b = 1 then .ok (some a)
    else .error .shapeMismatch

/-- Modelled from the spec: broadcast of two dimension lists given in
reversed (trailing-first) order; a missing dimension on one side is filled
by the other side's dimension (spec section 4.1 step 2, trailing-dimension
alignment). -/
def broadcastDimsRev : List (Option Nat) → List (Option Nat) → Except TfError (List (Option Nat))
  | [], ys => .ok ys
  | x :: xs, [] => .ok (x :: xs)
  | x :: xs, y :: ys =>
    match broadcastDim x y with
    | .error e => .error e
    | .ok d =>
      match broadcastDimsRev xs ys with
      | .error e => .error e
      | .ok rest => .ok (d :: rest)

/-- Modelled from the spec: the broadcast output shape of two TensorShapes:
dimensions are compared from the last axis backward; unknown rank on either
side yields an unknown-rank output (spec section 4.1 step 2). -/
def broadcastShapes (s1 s2 : TensorShape) : Except TfError TensorShape :=
  match s1.dims, s2.dims with
  | none, _ => .ok ⟨none⟩
  | some _, none => .ok ⟨none⟩
  | some d1, some d2 =>
    match broadcastDimsRev d1.reverse d2.reverse with
    | .error e => .error e
    | .ok r => .ok ⟨some r.reverse⟩

/-- Modelled from the spec: merge of a single pair of dimensions (spec
sections 3 and 4.4): an unknown dimension merged with a known one yields the
known value; two known values must be equal, else `ShapeMismatch`. -/
def mergeDim : Option Nat → Option Nat → Except TfError (Option Nat)
  | none, d => .ok d
  | some a, none => .ok (some a)
  | some a, some b => if a = b then .ok (some a) else .error .shapeMismatch

/-- Modelled from the spec: dimension-wise merge of two equal-length
dimension lists (spec section 4.4). -/
def mergeDims : List (Option Nat) → List (Option Nat) → Except TfError (List (Option Nat))
  | [], [] => .ok []
  | x :: xs, y :: ys =>
    match mergeDim x y with
    | .error e => .error e
    | .ok d =>
      match mergeDims xs ys with
      | .error e => .error e
      | .ok rest => .ok (d :: rest)
  | _, _ => .error .shapeMismatch

/-- Modelled from the spec: merge of two TensorShapes, producing the most
specific shape consistent with both; a fully-unknown shape is the identity,
and known ranks must agree (spec section 4.4). -/
def mergeShapes (s1 s2 : TensorShape) : Except TfError TensorShape :=
  match s1.dims, s2.dims with
  | none, d => .ok ⟨d⟩
  | some d1, none => .ok ⟨some d1⟩
  | some d1, some d2 =>
    if d1.length = d2.length then
      match mergeDims d1 d2 with
      | .error e => .error e
      | .ok r => .ok ⟨some r⟩
    else .error .shapeMismatch

/-- Specificity order on dimensions, for stating that merge yields the most
specific shape: `dimLE a b` holds when `b` carries at least the information
of `a` - `a` is unknown, or they agree. -/
def dimLE (a b : Option Nat) : Prop := a = none ∨ a = b

/-- Specificity order on shapes: `shapeLE s t` holds when `t` carries at
least the information of `s` - `s` has unknown rank, or both ranks are known
and every dimension of `t` is at least as specific as the corresponding
dimension of `s`.  A shape consistent with two inputs is an upper bound of
both in this order; the most specific such shape is the least one. -/
def shapeLE (s t : TensorShape) : Prop :=
  match s.dims, t.dims with
  | none, _ => True
  | some _, none => False
  | some l1, some l2 => List.Forall₂ dimLE l1 l2

/-- Modelled from the spec: the dtype applicability gate of spec section 4.1
step 1, refined by the dtype lists in the interface's doc comments:
`and`/`or`/`xor` require boolean operands; `add` also admits string;
`div`/`floorDiv`/`mod`/`trueDiv` act on real numeric types; the remaining
arithmetic operators act on numeric (possibly complex) types. -/
def opAllows (t : OpType) (d : DType) : Bool :=
  match t with
  | .andOp | .orOp | .xorOp => d = DType.bool
  | .addOp =>
    match d with
    | .bool => false
    | _ => true
  | .divOp | .floorDivOp | .modOp | .trueDivOp =>
    match d with
    | .float32 | .float64 | .int32 | .int64 => true
    | _ => false
  | _ =>
    match d with
    | .float32 | .float64 | .int32 | .int64 | .complex64 | .complex128 => true
    | _ => false

/-- Modelled from the spec: construction of an element-wise binary Operation
(spec section 4.1 steps 1-4).  Graph ownership is validated first, since
spec section 8 asserts `GraphMismatch` unconditionally for operands from
different Graphs; then the dtype gate (the interface's doc comments require
`y` to have the same type as `x`), then the broadcast of the shapes.  On
success the new Operation carries the operator's type tag, inputs `[x, y]`
and one output whose dtype is the common dtype and whose shape is the
broadcast shape; `freshId` is the identity the Graph assigns to the new
node.  An `Except.error` result models that no Operation was registered. -/
def binaryOp (t : OpType) (x y : Tensor) (freshId : Nat) :
    Except TfError (Operation × Tensor) :=
  if x.graph ≠ y.graph then .error .graphMismatch
  else if x.dtype ≠ y.dtype then .error .typeError
  else if !(opAllows t x.dtype) then .error .typeError
  else
    match broadcastShapes x.shape y.shape with
    | .error e => .error e
    | .ok s =>
      .ok (⟨t, [x, y], [(x.dtype, s)], x.graph⟩, ⟨freshId, 0, x.dtype, s, x.graph⟩)

/-- add (interface.ts line 75): element-wise x + y. -/
def add (x y : Tensor) (freshId : Nat) : Except TfError (Operation × Tensor) :=
  binaryOp .addOp x y freshId

/-- sub (interface.ts line 235): element-wise x - y. -/
def sub (x y : Tensor) (freshId : Nat) : Except TfError (Operation × Tensor) :=
  binaryOp .subOp x y freshId

/-- mul (interface.ts line 196): element-wise x * y. -/
def mul (x y : Tensor) (freshId : Nat) : Except TfError (Operation × Tensor) :=
  binaryOp .mulOp x y freshId

/-- div (interface.ts line 95): element-wise division. -/
def div (x y : Tensor) (freshId : Nat) : Except TfError (Operation × Tensor) :=
  binaryOp .divOp x y freshId

/-- floorDiv (interface.ts line 110): element-wise flooring division. -/
def floorDiv (x y : Tensor) (freshId : Nat) : Except TfError (Operation × Tensor) :=
  binaryOp .floorDivOp x y freshId

/-- mod (interface.ts line 188): element-wise remainder. -/
def mod (x y : Tensor) (freshId : Nat) : Except TfError (Operation × Tensor) :=
  binaryOp .modOp x y freshId

/-- pow (interface.ts line 225): element-wise power. -/
def pow (x y : Tensor) (freshId : Nat) : Except TfError (Operation × Tensor) :=
  binaryOp .powOp x y freshId

/-- and (interface.ts line 84): element-wise boolean AND. -/
def and (x y : Tensor) (freshId : Nat) : Except TfError (Operation × Tensor) :=
  binaryOp .andOp x y freshId

/-- or (interface.ts line 216): element-wise boolean OR. -/
def or (x y : Tensor) (freshId : Nat) : Except TfError (Operation × Tensor) :=
  binaryOp .orOp x y freshId

/-- xor (interface.ts line 251): element-wise boolean XOR. -/
def xor (x y : Tensor) (freshId : Nat) : Except TfError (Operation × Tensor) :=
  binaryOp .xorOp x y freshId

/-- trueDiv (interface.ts line 243): element-wise true division. -/
def trueDiv (x y : Tensor) (freshId : Nat) : Except TfError (Operation × Tensor) :=
  binaryOp .trueDivOp x y freshId

/-- Modelled from the spec: reflected operators delegate to their forward
counterpart with operands already swapped back into canonical `(x, y)` order
(spec section 4.1, reflected operators; interface.ts line 261). -/
def rAdd (x y : Tensor) (freshId : Nat) : Except TfError (Operation × Tensor) :=
  add x y freshId

/-- rSub (interface.ts line 349): reflected sub, canonical-order delegation. -/
def rSub (x y : Tensor) (freshId : Nat) : Except TfError (Operation × Tensor) :=
  sub x y freshId

/-- rMul (interface.ts line 321): reflected mul, canonical-order delegation. -/
def rMul (x y : Tensor) (freshId : Nat) : Except TfError (Operation × Tensor) :=
  mul x y freshId

/-- rDiv (interface.ts line 279): reflected div, canonical-order delegation. -/
def rDiv (x y : Tensor) (freshId : Nat) : Except TfError (Operation × Tensor) :=
  div x y freshId

/-- rFloorDiv (interface.ts line 288): reflected floorDiv. -/
def rFloorDiv (x y : Tensor) (freshId : Nat) : Except TfError (Operation × Tensor) :=
  floorDiv x y freshId

/-- rMod (interface.ts line 313): reflected mod. -/
def rMod (x y : Tensor) (freshId : Nat) : Except TfError (Operation × Tensor) :=
  mod x y freshId

/-- rPow (interface.ts line 339): reflected pow. -/
def rPow (x y : Tensor) (freshId : Nat) : Except TfError (Operation × Tensor) :=
  pow x y freshId

/-- rAnd (interface.ts line 270): reflected and. -/
def rAnd (x y : Tensor) (freshId : Nat) : Except TfError (Operation × Tensor) :=
  and x y freshId

/-- rOr (interface.ts line 330): reflected or. -/
def rOr (x y : Tensor) (freshId : Nat) : Except TfError (Operation × Tensor) :=
  or x y freshId

/-- rXor (interface.ts line 365): reflected xor. -/
def rXor (x y : Tensor) (freshId : Nat) : Except TfError (Operation × Tensor) :=
  xor x y freshId

/-- rTrueDiv (interface.ts line 357): reflected trueDiv. -/
def rTrueDiv (x y : Tensor) (freshId : Nat) : Except TfError (Operation × Tensor) :=
  trueDiv x y freshId

/-- Dtypes accepted by abs, per the doc comment at interface.ts lines 58-59:
float32, float64, int32, int64, complex64, complex128. -/
def absAllows (d : DType) : Bool :=
  match d with
  | .float32 | .float64 | .int32 | .int64 | .complex64 | .complex128 => true
  | _ => false

/-- Output dtype of abs, per the doc comment at interface.ts lines 61-63:
for complex64 or complex128 input the returned Tensor is of type float32 or
float64 respectively; every other dtype passes through unchanged. -/
def absOutDType (d : DType) : DType :=
  match d with
  | .complex64 => .float32
  | .complex128 => .float64
  | d => d

/-- Modelled from the spec: abs constructs a one-input Operation whose
output keeps the input's shape; its output dtype follows `absOutDType`
(interface.ts lines 56-65). -/
def abs (x : Tensor) (freshId : Nat) : Except TfError (Operation × Tensor) :=
  if absAllows x.dtype then
    .ok (⟨.absOp, [x], [(absOutDType x.dtype, x.shape)], x.graph⟩,
      ⟨freshId, 0, absOutDType x.dtype, x.shape, x.graph⟩)
  else .error .typeError

/-- Dtypes accepted by neg, per the doc comment at interface.ts lines
200-201 (restricted to the dtype set modelled here). -/
def negAllows (d : DType) : Bool :=
  match d with
  | .float32 | .float64 | .int32 | .int64 | .complex64 | .complex128 => true
  | _ => false

/-- Modelled from the spec: neg passes shape and dtype through unchanged
(spec section 4.1, unary operators; interface.ts lines 198-205). -/
def neg (x : Tensor) (freshId : Nat) : Except TfError (Operation × Tensor) :=
  if negAllows x.dtype then
    .ok (⟨.negOp, [x], [(x.dtype, x.shape)], x.graph⟩,
      ⟨freshId, 0, x.dtype, x.shape, x.graph⟩)
  else .error .typeError

/-- Modelled from the spec: invert requires a boolean operand and passes
shape and dtype through unchanged (spec section 4.1; interface.ts lines
134-140). -/
def invert (x : Tensor) (freshId : Nat) : Except TfError (Operation × Tensor) :=
  if x.dtype = DType.bool then
    .ok (⟨.invertOp, [x], [(x.dtype, x.shape)], x.graph⟩,
      ⟨freshId, 0, x.dtype, x.shape, x.graph⟩)
  else .error .typeError

/-- Modelled from the spec: the matMul output-shape computation (spec
section 4.1, matMul contract): transpose and adjoint are mutually exclusive
per operand (`InvalidArgument`); inputs need rank at least 2 (`RankError`;
an unknown-rank input yields an unknown-rank output, since its rank cannot
be checked); the batch dimensions (all but the last two axes) must
broadcast-match; the inner contraction dimension of `x` after the
transpose/adjoint orientation must equal the inner dimension of `y`, else
`ShapeMismatch`; the output shape is the broadcast batch followed by
`[rowsOfX, colsOfY]` in post-transpose/adjoint orientation. -/
def matMulShape (sx sy : TensorShape) (tA tB aA aB : Bool) :
    Except TfError TensorShape :=
  if tA && aA then .error .invalidArgument
  else if tB && aB then .error .invalidArgument
  else
    match sx.dims, sy.dims with
    | none, _ => .ok ⟨none⟩
    | some _, none => .ok ⟨none⟩
    | some dx, some dy =>
      match dx.reverse, dy.reverse with
      | cx :: rx :: bxRev, cy :: ry :: byRev =>
        let rowsX := if tA || aA then cx else rx
        let colsX := if tA || aA then rx else cx
        let rowsY := if tB || aB then cy else ry
        let colsY := if tB || aB then ry else cy
        match broadcastDimsRev bxRev byRev with
        | .error e => .error e
        | .ok batchRev =>
          match mergeDim colsX rowsY with
          | .error e => .error e
          | .ok _ => .ok ⟨some (batchRev.reverse ++ [rowsX, colsY])⟩
      | _, _ => .error .rankError

/-- Dtypes accepted by matMul, per the doc comment at interface.ts line 167
(restricted to the dtype set modelled here). -/
def matMulDTypeOk (d : DType) : Bool :=
  match d with
  | .float32 | .float64 | .int32 | .complex64 | .complex128 => true
  | _ => false

/-- Modelled from the spec: matMul constructs a matrix-product Operation
(interface.ts lines 165-179).  The transpose/adjoint exclusivity flags are
validated first, then graph ownership, then the dtype contract (`y` must
have the same supported type as `x`), then the shape computation; the sparse
hints only select the constructed Operation's type tag. -/
def matMul (x y : Tensor) (tA tB aA aB aSparse bSparse : Bool) (freshId : Nat) :
    Except TfError (Operation × Tensor) :=
  if tA && aA then .error .invalidArgument
  else if tB && aB then .error .invalidArgument
  else if x.graph ≠ y.graph then .error .graphMismatch
  else if x.dtype ≠ y.dtype then .error .typeError
  else if !(matMulDTypeOk x.dtype) then .error .typeError
  else
    match matMulShape x.shape y.shape tA tB aA aB with
    | .error e => .error e
    | .ok s =>
      .ok (⟨if aSparse || bSparse then .sparseMatMulOp else .matMulOp,
        [x, y], [(x.dtype, s)], x.graph⟩,
        ⟨freshId, 0, x.dtype, s, x.graph⟩)

/-- rMatMul (interface.ts lines 303-304): reflected matMul, canonical-order
delegation as for the other reflected operators. -/
def rMatMul (x y : Tensor) (tA tB aA aB aSparse bSparse : Bool) (freshId : Nat) :
    Except TfError (Operation × Tensor) :=
  matMul x y tA tB aA aB aSparse bSparse freshId

/-- Modelled from the spec: `init(op, valueIndex, dtype)` binds a new handle
to output `valueIndex` of `op` (spec section 4.1, construction; interface.ts
line 54): `InvalidIndex` when `valueIndex` is out of range for the declared
output count, `DTypeMismatch` when `dtype` disagrees with the declared
output dtype of that slot.  The successful result is determined by the
operation and the slot alone, modelling the per-slot canonical handle;
`opId` stands for the identity of `op`. -/
def init (opId : Nat) (op : Operation) (valueIndex : Nat) (dtype : DType) :
    Except TfError Tensor :=
  match op.outputs.get? valueIndex with
  | none => .error .invalidIndex
  | some ds =>
    if dtype = ds.1 then .ok ⟨opId, valueIndex, ds.1, ds.2, op.graph⟩
    else .error .dtypeMismatch

/-- Modelled from the spec: handle equality `eq(other)` is structural
identity of the Tensor handle - same producing operation, same valueIndex
and same graph - returning a plain boolean, not a graph operation (spec
section 4.1, eq contract; interface.ts line 101). -/
def eq (x other : Tensor) : Bool :=
  decide (x.opId = other.opId) && decide (x.valueIndex = other.valueIndex)
    && decide (x.graph = other.graph)

/-- A model of the TypeScript surface types that appear in the interface's
declared signatures, used to state claims that are purely about declared
parameter and return types. -/
inductive TSType
  | tensor
  | session
  | value
  | arrayOf (t : TSType)
  | mapOf (k v : TSType)
  | optional (t : TSType)
  deriving DecidableEq, Repr

/-- The declared parameter types of `eval`, from interface.ts line 380:
`eval(feedDict: Tensor[], session?: Session): Tensor[]`. -/
def evalParamTypes : List TSType :=
  [TSType.arrayOf TSType.tensor, TSType.optional TSType.session]

/-- The declared return type of `eval`, from interface.ts line 380. -/
def evalReturnType : TSType :=
  TSType.arrayOf TSType.tensor

/-- An example Graph. -/
def g0 : Graph := ⟨0⟩

/-- A second, distinct example Graph. -/
def g1 : Graph := ⟨1⟩

/-- An example fully-known shape [2, 3]. -/
def shape23 : TensorShape := ⟨some [some 2, some 3]⟩

/-- An example float32 tensor of shape [2, 3] in graph `g0`. -/
def tx : Tensor := ⟨0, 0, .float32, shape23, g0⟩

/-- A second float32 tensor of shape [2, 3] in graph `g0`, produced by a
different Operation than `tx`. -/
def ty : Tensor := ⟨1, 0, .float32, shape23, g0⟩

/-- A float32 tensor of shape [2, 3] owned by the other graph `g1`. -/
def tz : Tensor := ⟨2, 0, .float32, shape23, g1⟩

/-- A complex64 tensor of shape [2, 3] in graph `g0`. -/
def tc : Tensor := ⟨3, 0, .complex64, shape23, g0⟩

/-- The Operation produced by `add tx ty 5`. -/
def opExAdd : Operation := ⟨.addOp, [tx, ty], [(.float32, shape23)], g0⟩

/-- The output Tensor produced by `add tx ty 5`. -/
def outExAdd : Tensor := ⟨5, 0, .float32, shape23, g0⟩

/-- An example Operation with a single declared float32 output slot. -/
def opEx6 : Operation := ⟨.addOp, [], [(.float32, shape23)], g0⟩

/-- The Operation produced by `neg tx 9`. -/
def opExNeg : Operation := ⟨.negOp, [tx], [(.float32, shape23)], g0⟩

/-- The output Tensor produced by `neg tx 9`. -/
def outExNeg : Tensor := ⟨9, 0, .float32, shape23, g0⟩

/-- The Operation produced by `abs tc 8`: the complex64 input yields a
float32 output, per the interface's doc comment. -/
def opExAbs : Operation := ⟨.absOp, [tc], [(.float32, shape23)], g0⟩

/-- The output Tensor produced by `abs tc 8`. -/
def outExAbs : Tensor := ⟨8, 0, .float32, shape23, g0⟩

/-! Helper lemmas about broadcasting and merging. -/

/-- Dimension broadcast is commutative. -/
theorem broadcastDim_comm (a b : Option Nat) : broadcastDim a b = broadcastDim b a := by
  rcases a with _ | a <;> rcases b with _ | b <;> simp only [broadcastDim]
  rcases eq_or_ne a b with hab | hab
  · subst hab; simp
  · have hba : ¬b = a := fun h => hab h.symm
    rcases eq_or_ne a 1 with ha | ha
    · subst ha
      simp [hab, hba]
    · rcases eq_or_ne b 1 with hb | hb
      · subst hb
        simp [hab, hba, ha]
      · simp [hab, hba, ha, hb]

/-- Reversed-list dimension broadcast is commutative. -/
theorem broadcastDimsRev_comm : ∀ xs ys, broadcastDimsRev xs ys = broadcastDimsRev ys xs
  | [], [] => rfl
  | [], _ :: _ => rfl
  | _ :: _, [] => rfl
  | x :: xs, y :: ys => by
    simp only [broadcastDimsRev, broadcastDim_comm x y, broadcastDimsRev_comm xs ys]

/-- Shape broadcast is commutative. -/
theorem broadcastShapes_comm (s1 s2 : TensorShape) :
    broadcastShapes s1 s2 = broadcastShapes s2 s1 := by
  rcases s1 with ⟨_ | d1⟩ <;> rcases s2 with ⟨_ | d2⟩ <;> simp only [broadcastShapes]
  rw [broadcastDimsRev_comm]

/-- Dimension merge is idempotent. -/
theorem mergeDim_self (d : Option Nat) : mergeDim d d = .ok d := by
  rcases d with _ | a
  · rfl
  · simp [mergeDim]

/-- Dimension-list merge is idempotent. -/
theorem mergeDims_self : ∀ l, mergeDims l l = .ok l
  | [] => rfl
  | x :: xs => by
    simp only [mergeDims, mergeDim_self x, mergeDims_self xs]

/-- The only error a dimension merge raises is `ShapeMismatch`. -/
theorem mergeDim_error : ∀ (a b : Option Nat) (e : TfError),
    mergeDim a b = .error e → e = TfError.shapeMismatch
  | none, _, _, h => Except.noConfusion h
  | some _, none, _, h => Except.noConfusion h
  | some a, some b, e, h => by
    by_cases hab : a = b
    · simp only [mergeDim, if_pos hab] at h
      exact Except.noConfusion h
    · simp only [mergeDim, if_neg hab, Except.error.injEq] at h
      exact h.symm

/-- A merged dimension is at least as specific as either argument. -/
theorem mergeDim_ub : ∀ (a b d : Option Nat), mergeDim a b = .ok d →
    dimLE a d ∧ dimLE b d
  | none, b, d, h => by
    simp only [mergeDim, Except.ok.injEq] at h
    subst h
    exact ⟨Or.inl rfl, Or.inr rfl⟩
  | some a, none, d, h => by
    simp only [mergeDim, Except.ok.injEq] at h
    subst h
    exact ⟨Or.inr rfl, Or.inl rfl⟩
  | some a, some b, d, h => by
    by_cases hab : a = b
    · simp only [mergeDim, if_pos hab, Except.ok.injEq] at h
      subst h
      exact ⟨Or.inr rfl, Or.inr (by rw [hab])⟩
    · simp only [mergeDim, if_neg hab] at h
      exact Except.noConfusion h

/-- A merged dimension is no more specific than any common refinement of
its two arguments. -/
theorem mergeDim_least : ∀ (a b d t : Option Nat), mergeDim a b = .ok d →
    dimLE a t → dimLE b t → dimLE d t
  | none, b, d, t, h, _, hb => by
    simp only [mergeDim, Except.ok.injEq] at h
    subst h
    exact hb
  | some a, none, d, t, h, ha, _ => by
    simp only [mergeDim, Except.ok.injEq] at h
    subst h
    exact ha
  | some a, some b, d, t, h, ha, _ => by
    by_cases hab : a = b
    · simp only [mergeDim, if_pos hab, Except.ok.injEq] at h
      subst h
      exact ha
    · simp only [mergeDim, if_neg hab] at h
      exact Except.noConfusion h

/-- A known-dimension conflict at any position makes the dimension-list
merge fail with `ShapeMismatch`. -/
theorem mergeDims_conflict : ∀ (l1 l2 : List (Option Nat)) (i : Nat) (a b : Nat),
    l1.get? i = some (some a) → l2.get? i = some (some b) → a ≠ b →
    mergeDims l1 l2 = .error TfError.shapeMismatch
  | [], _, i, _, _, h1, _, _ => by simp at h1
  | _ :: _, [], i, _, _, _, h2, _ => by simp at h2
  | x :: xs, y :: ys, 0, a, b, h1, h2, hab => by
    simp only [List.get?_cons_zero, Option.some.injEq] at h1 h2
    subst h1
    subst h2
    simp only [mergeDims, mergeDim, if_neg hab]
  | x :: xs, y :: ys, i + 1, a, b, h1, h2, hab => by
    simp only [List.get?_cons_succ] at h1 h2
    have ih := mergeDims_conflict xs ys i a b h1 h2 hab
    rcases hm : mergeDim x y with e | d
    · simp only [mergeDims, hm, mergeDim_error x y e hm]
    · simp only [mergeDims, hm, ih]

/-- A merged dimension list is at least as specific as either argument. -/
theorem mergeDims_ub : ∀ (l1 l2 r : List (Option Nat)), mergeDims l1 l2 = .ok r →
    List.Forall₂ dimLE l1 r ∧ List.Forall₂ dimLE l2 r
  | [], [], r, h => by
    simp only [mergeDims, Except.ok.injEq] at h
    subst h
    exact ⟨List.Forall₂.nil, List.Forall₂.nil⟩
  | [], _ :: _, _, h => Except.noConfusion h
  | _ :: _, [], _, h => Except.noConfusion h
  | x :: xs, y :: ys, r, h => by
    rcases hm : mergeDim x y with e | d
    · simp only [mergeDims, hm] at h
      exact Except.noConfusion h
    · rcases hr : mergeDims xs ys with e | rest
      · simp only [mergeDims, hm, hr] at h
        exact Except.noConfusion h
      · simp only [mergeDims, hm, hr, Except.ok.injEq] at h
        subst h
        have hd := mergeDim_ub x y d hm
        have ih := mergeDims_ub xs ys rest hr
        exact ⟨List.Forall₂.cons hd.1 ih.1, List.Forall₂.cons hd.2 ih.2⟩

/-- A merged dimension list is no more specific than any common refinement
of its two arguments. -/
theorem mergeDims_least : ∀ (l1 l2 r t : List (Option Nat)), mergeDims l1 l2 = .ok r →
    List.Forall₂ dimLE l1 t → List.Forall₂ dimLE l2 t → List.Forall₂ dimLE r t
  | [], [], r, _, h, h1, _ => by
    simp only [mergeDims, Except.ok.injEq] at h
    subst h
    exact h1
  | [], _ :: _, _, _, h, _, _ => Except.noConfusion h
  | _ :: _, [], _, _, h, _, _ => Except.noConfusion h
  | x :: xs, y :: ys, r, t, h, h1, h2 => by
    rcases hm : mergeDim x y with e | d
    · simp only [mergeDims, hm] at h
      exact Except.noConfusion h
    · rcases hr : mergeDims xs ys with e | rest
      · simp only [mergeDims, hm, hr] at h
        exact Except.noConfusion h
      · simp only [mergeDims, hm, hr, Except.ok.injEq] at h
        subst h
        rcases h1 with _ | ⟨hd1, ht1⟩
        rcases h2 with _ | ⟨hd2, ht2⟩
        exact List.Forall₂.cons (mergeDim_least x y d _ hm hd1 hd2)
          (mergeDims_least xs ys rest _ hr ht1 ht2)

/-- The specificity order on shapes is reflexive. -/
theorem shapeLE_refl (s : TensorShape) : shapeLE s s := by
  rcases s with ⟨_ | l⟩
  · trivial
  · exact List.forall₂_same.mpr fun a _ => Or.inr rfl

/-- Broadcasting compares the last dimensions first: an incompatible final
pair fails the whole shape broadcast. -/
theorem broadcastShapes_concat_error (l1 l2 : List (Option Nat)) (d1 d2 : Option Nat)
    (e : TfError) (h : broadcastDim d1 d2 = .error e) :
    broadcastShapes ⟨some (l1 ++ [d1])⟩ ⟨some (l2 ++ [d2])⟩ = .error e := by
  simp only [broadcastShapes, List.reverse_append, List.reverse_cons, List.reverse_nil,
    List.nil_append, List.singleton_append, broadcastDimsRev, h]

/-- Broadcasting aligns trailing dimensions: the broadcast of two shapes
extended by one more trailing dimension each is the broadcast of the
originals extended by the broadcast of the new pair. -/
theorem broadcastShapes_concat_ok (l1 l2 r : List (Option Nat)) (d1 d2 d : Option Nat)
    (h1 : broadcastDim d1 d2 = .ok d)
    (h2 : broadcastShapes ⟨some l1⟩ ⟨some l2⟩ = .ok ⟨some r⟩) :
    broadcastShapes ⟨some (l1 ++ [d1])⟩ ⟨some (l2 ++ [d2])⟩ = .ok ⟨some (r ++ [d])⟩ := by
  rcases hbr : broadcastDimsRev l1.reverse l2.reverse with e | u
  · simp only [broadcastShapes, hbr] at h2
    exact Except.noConfusion h2
  · have hu : u.reverse = r := by
      simp only [broadcastShapes, hbr, Except.ok.injEq, TensorShape.mk.injEq,
        Option.some.injEq] at h2
      exact h2
    simp only [broadcastShapes, List.reverse_append, List.reverse_cons, List.reverse_nil,
      List.nil_append, List.singleton_append, broadcastDimsRev, h1, hbr]
    rw [hu]

end TF

namespace TF

/-- C2: broadcasting aligns dimensions from the last axis backward; two
dimensions are compatible exactly when they are equal, either is unknown, or
either equals 1; incompatible known dimensions fail with `ShapeMismatch`;
unknown rank on either side yields unknown-rank output; and shape broadcast
is commutative. -/
theorem broadcast_rule_spec :
    (∀ a b : Nat, (∃ d, broadcastDim (some a) (some b) = .ok d) ↔ (a = b ∨ a = 1 ∨ b = 1)) ∧
    (∀ a b : Nat, ¬(a = b ∨ a = 1 ∨ b = 1) →
      broadcastDim (some a) (some b) = .error TfError.shapeMismatch) ∧
    (∀ d : Option Nat, (∃ r, broadcastDim none d = .ok r) ∧ (∃ r, broadcastDim d none = .ok r)) ∧
    (∀ s : TensorShape, broadcastShapes ⟨none⟩ s = .ok ⟨none⟩ ∧
      broadcastShapes s ⟨none⟩ = .ok ⟨none⟩) ∧
    (∀ (l1 l2 : List (Option Nat)) (d1 d2 : Option Nat) (e : TfError),
      broadcastDim d1 d2 = .error e →
      broadcastShapes ⟨some (l1 ++ [d1])⟩ ⟨some (l2 ++ [d2])⟩ = .error e) ∧
    (∀ (l1 l2 r : List (Option Nat)) (d1 d2 d : Option Nat),
      broadcastDim d1 d2 = .ok d → broadcastShapes ⟨some l1⟩ ⟨some l2⟩ = .ok ⟨some r⟩ →
      broadcastShapes ⟨some (l1 ++ [d1])⟩ ⟨some (l2 ++ [d2])⟩ = .ok ⟨some (r ++ [d])⟩) ∧
    (∀ s1 s2 : TensorShape, broadcastShapes s1 s2 = broadcastShapes s2 s1) := by
  refine ⟨?_, ?_, ?_, ?_, broadcastShapes_concat_error, broadcastShapes_concat_ok,
    broadcastShapes_comm⟩
  · intro a b
    constructor
    · rintro ⟨d, hd⟩
      by_contra hc
      push_neg at hc
      simp only [broadcastDim, if_neg hc.1, if_neg hc.2.1, if_neg hc.2.2] at hd
      exact Except.noConfusion hd
    · intro h
      simp only [broadcastDim]
      rcases eq_or_ne a b with hab | hab
      · exact ⟨some a, by simp [hab]⟩
      · rcases eq_or_ne a 1 with ha | ha
        · exact ⟨some b, by simp [hab, ha]⟩
        · rcases eq_or_ne b 1 with hb | hb
          · exact ⟨some a, by simp [hab, ha, hb]⟩
          · exact absurd h (by simp [hab, ha, hb])
  · intro a b h
    push_neg at h
    simp only [broadcastDim, if_neg h.1, if_neg h.2.1, if_neg h.2.2]
  · intro d
    rcases d with _ | b
    · exact ⟨⟨none, rfl⟩, ⟨none, rfl⟩⟩
    · exact ⟨⟨if b = 1 then none else some b, rfl⟩, ⟨if b = 1 then none else some b, rfl⟩⟩
  · intro s
    rcases s with ⟨_ | d⟩
    · exact ⟨rfl, rfl⟩
    · exact ⟨rfl, rfl⟩

/-- C2 witness: the known dimensions 3 and 6 are incompatible and fail with
`ShapeMismatch`. -/
theorem broadcast_rule_spec_witness :
    broadcastDim (some 3) (some 6) = .error TfError.shapeMismatch :=
  broadcast_rule_spec.2.1 3 6 (by decide)

/-- C3: shape merge is idempotent, a fully-unknown shape is an identity for
merge, merging [3, unknown] with [unknown, 4] yields [3, 4], merging [3, 5]
with [3, 6] fails with `ShapeMismatch`; in general, any two shapes that
conflict on a known dimension at any position fail with `ShapeMismatch`,
and every successful merge is the most specific shape consistent with its
two inputs: an upper bound of both in the specificity order that is below
every common refinement. -/
theorem merge_rule_spec :
    (∀ s : TensorShape, mergeShapes s s = .ok s) ∧
    (∀ s : TensorShape, mergeShapes ⟨none⟩ s = .ok s ∧ mergeShapes s ⟨none⟩ = .ok s) ∧
    (mergeShapes ⟨some [some 3, none]⟩ ⟨some [none, some 4]⟩ = .ok ⟨some [some 3, some 4]⟩) ∧
    (mergeShapes ⟨some [some 3, some 5]⟩ ⟨some [some 3, some 6]⟩ =
      .error TfError.shapeMismatch) ∧
    (∀ (l1 l2 : List (Option Nat)) (i : Nat) (a b : Nat),
      l1.get? i = some (some a) → l2.get? i = some (some b) → a ≠ b →
      mergeShapes ⟨some l1⟩ ⟨some l2⟩ = .error TfError.shapeMismatch) ∧
    (∀ (s1 s2 r : TensorShape), mergeShapes s1 s2 = .ok r →
      shapeLE s1 r ∧ shapeLE s2 r ∧
        ∀ t : TensorShape, shapeLE s1 t → shapeLE s2 t → shapeLE r t) := by
  refine ⟨?_, ?_, rfl, rfl, ?_, ?_⟩
  · intro s
    rcases s with ⟨_ | d⟩
    · rfl
    · simp [mergeShapes, mergeDims_self]
  · intro s
    rcases s with ⟨_ | d⟩
    · exact ⟨rfl, rfl⟩
    · exact ⟨rfl, rfl⟩
  · intro l1 l2 i a b h1 h2 hab
    by_cases hlen : l1.length = l2.length
    · simp only [mergeShapes, if_pos hlen, mergeDims_conflict l1 l2 i a b h1 h2 hab]
    · simp only [mergeShapes, if_neg hlen]
  · intro s1 s2 r h
    rcases s1 with ⟨_ | l1⟩
    · simp only [mergeShapes, Except.ok.injEq] at h
      subst h
      exact ⟨trivial, shapeLE_refl s2, fun t _ h2 => h2⟩
    · rcases s2 with ⟨_ | l2⟩
      · simp only [mergeShapes, Except.ok.injEq] at h
        subst h
        exact ⟨shapeLE_refl ⟨some l1⟩, trivial, fun t h1 _ => h1⟩
      · by_cases hlen : l1.length = l2.length
        · rcases hm : mergeDims l1 l2 with e | r0
          · simp only [mergeShapes, if_pos hlen, hm] at h
            exact Except.noConfusion h
          · simp only [mergeShapes, if_pos hlen, hm, Except.ok.injEq] at h
            subst h
            have hub := mergeDims_ub l1 l2 r0 hm
            refine ⟨hub.1, hub.2, ?_⟩
            intro t h1 h2
            rcases t with ⟨_ | lt⟩
            · exact absurd h1 (by simp [shapeLE])
            · exact mergeDims_least l1 l2 r0 lt hm h1 h2
        · simp only [mergeShapes, if_neg hlen] at h
          exact Except.noConfusion h

/-- C3 witness: the shapes [3, 5] and [3, 6] conflict on the known dimension
at position 1, so their merge fails with `ShapeMismatch`. -/
theorem merge_rule_spec_witness :
    mergeShapes ⟨some [some 3, some 5]⟩ ⟨some [some 3, some 6]⟩ =
      .error TfError.shapeMismatch :=
  merge_rule_spec.2.2.2.2.1 [some 3, some 5] [some 3, some 6] 1 5 6 rfl rfl (by decide)

/-- C1: every reflected binary operator, invoked with its operands already
swapped back into canonical `(x, y)` order, produces exactly the graph the
forward operator produces; on success the constructed Operation carries the
operator's type tag, the inputs in order `[x, y]`, and the common output
dtype and broadcast shape of its single output Tensor. -/
theorem reflected_operators_spec :
    (∀ (x y : Tensor) (i : Nat), rAdd x y i = add x y i) ∧
    (∀ (x y : Tensor) (i : Nat), rSub x y i = sub x y i) ∧
    (∀ (x y : Tensor) (i : Nat), rMul x y i = mul x y i) ∧
    (∀ (x y : Tensor) (i : Nat), rDiv x y i = div x y i) ∧
    (∀ (x y : Tensor) (i : Nat), rFloorDiv x y i = floorDiv x y i) ∧
    (∀ (x y : Tensor) (i : Nat), rMod x y i = mod x y i) ∧
    (∀ (x y : Tensor) (i : Nat), rPow x y i = pow x y i) ∧
    (∀ (x y : Tensor) (i : Nat), rAnd x y i = and x y i) ∧
    (∀ (x y : Tensor) (i : Nat), rOr x y i = or x y i) ∧
    (∀ (x y : Tensor) (i : Nat), rXor x y i = xor x y i) ∧
    (∀ (x y : Tensor) (i : Nat), rTrueDiv x y i = trueDiv x y i) ∧
    (∀ (t : OpType) (x y : Tensor) (i : Nat) (op : Operation) (out : Tensor),
      binaryOp t x y i = .ok (op, out) →
      op.opType = t ∧ op.inputs = [x, y] ∧ op.outputs = [(out.dtype, out.shape)] ∧
        out.dtype = x.dtype ∧ op.graph = x.graph) := by
  refine ⟨?_, ?_, ?_, ?_, ?_, ?_, ?_, ?_, ?_, ?_, ?_, ?_⟩
  any_goals (intro x y i; rfl)
  intro t x y i op out h
  simp only [binaryOp] at h
  split at h
  · exact Except.noConfusion h
  · split at h
    · exact Except.noConfusion h
    · split at h
      · exact Except.noConfusion h
      · split at h
        · exact Except.noConfusion h
        · rcases h with ⟨⟩
          exact ⟨rfl, rfl, rfl, rfl, rfl⟩

/-- C1 witness: `add tx ty 5` succeeds and its constructed Operation has the
add tag, inputs `[tx, ty]` and the expected output slot. -/
theorem reflected_operators_spec_witness :
    opExAdd.opType = .addOp ∧ opExAdd.inputs = [tx, ty] ∧
      opExAdd.outputs = [(outExAdd.dtype, outExAdd.shape)] ∧
      outExAdd.dtype = tx.dtype ∧ opExAdd.graph = tx.graph :=
  reflected_operators_spec.2.2.2.2.2.2.2.2.2.2.2 .addOp tx ty 5 opExAdd outExAdd rfl

/-- C5: a binary operator applied to Tensors owned by different Graphs fails
with `GraphMismatch`, and no Operation is produced. -/
theorem graph_mismatch_spec :
    ∀ (t : OpType) (x y : Tensor) (i : Nat), x.graph ≠ y.graph →
      binaryOp t x y i = .error TfError.graphMismatch ∧
      ∀ (op : Operation) (out : Tensor), binaryOp t x y i ≠ .ok (op, out) := by
  intro t x y i h
  have he : binaryOp t x y i = .error TfError.graphMismatch := by
    simp only [binaryOp, if_pos h]
  exact ⟨he, fun op out hc => Except.noConfusion (he ▸ hc)⟩

/-- C5 witness: `tx` (graph g0) and `tz` (graph g1) cannot be added. -/
theorem graph_mismatch_spec_witness :
    binaryOp .addOp tx tz 6 = .error TfError.graphMismatch ∧
      ∀ (op : Operation) (out : Tensor), binaryOp .addOp tx tz 6 ≠ .ok (op, out) :=
  graph_mismatch_spec .addOp tx tz 6 (by decide)

/-- C6: `init` fails with `InvalidIndex` exactly when the slot index is out
of range for the operation's declared output count, fails with
`DTypeMismatch` exactly when the supplied dtype disagrees with the declared
dtype of an in-range slot, and on success yields the canonical handle that
is determined by the operation and the slot alone. -/
theorem init_spec :
    ∀ (opId : Nat) (op : Operation) (i : Nat) (d : DType),
      (init opId op i d = .error TfError.invalidIndex ↔ op.outputs.length ≤ i) ∧
      (∀ (d0 : DType) (s0 : TensorShape), op.outputs.get? i = some (d0, s0) →
        ((init opId op i d = .error TfError.dtypeMismatch ↔ d ≠ d0) ∧
          (d = d0 → init opId op i d = .ok ⟨opId, i, d0, s0, op.graph⟩))) ∧
      (∀ (d1 d2 : DType) (t1 t2 : Tensor),
        init opId op i d1 = .ok t1 → init opId op i d2 = .ok t2 → t1 = t2) := by
  intro opId op i d
  refine ⟨?_, ?_, ?_⟩
  · rcases hget : op.outputs.get? i with _ | ds
    · simp only [init, hget]
      exact ⟨fun _ => List.get?_eq_none.mp hget, fun _ => trivial⟩
    · have hlt : i < op.outputs.length := by
        rcases List.get?_eq_some.mp hget with ⟨hl, _⟩
        exact hl
      simp only [init, hget]
      constructor
      · intro hc
        split at hc <;> simp at hc
      · intro hc
        exact absurd hc (Nat.not_le.mpr hlt)
  · intro d0 s0 hget
    simp only [init, hget]
    constructor
    · constructor
      · intro hc heq
        rw [if_pos heq] at hc
        exact Except.noConfusion hc
      · intro hd
        rw [if_neg hd]
    · intro hd
      rw [if_pos hd]
  · intro d1 d2 t1 t2 h1 h2
    rcases hget : op.outputs.get? i with _ | ds
    · simp only [init, hget] at h1
      exact Except.noConfusion h1
    · simp only [init, hget] at h1 h2
      split at h1
      · split at h2
        · rcases h1 with ⟨⟩
          rcases h2 with ⟨⟩
          rfl
        · exact Except.noConfusion h2
      · exact Except.noConfusion h1

/-- C6 witness: binding slot 0 of an Operation with one declared float32
output succeeds with the canonical handle; the error cases are exercised on
the same Operation at slot 1. -/
theorem init_spec_witness :
    (init 7 opEx6 0 .float32 = .ok ⟨7, 0, .float32, shape23, opEx6.graph⟩) ∧
      (init 7 opEx6 1 .float32 = .error TfError.invalidIndex ↔ opEx6.outputs.length ≤ 1) :=
  ⟨((init_spec 7 opEx6 0 .float32).2.1 .float32 shape23 rfl).2 rfl,
    (init_spec 7 opEx6 1 .float32).1⟩

/-- C7 counterexample: `abs` applied to the complex64 tensor `tc` succeeds,
yet its output dtype is float32, not the input's complex64 - so the claim
that the output dtype is always identical to the input's is false, exactly
as the interface's own doc comment for `abs` (interface.ts lines 61-63)
documents. -/
theorem abs_dtype_counterexample :
    TF.abs tc 8 = .ok (opExAbs, outExAbs) ∧ outExAbs.dtype ≠ tc.dtype := by
  refine ⟨rfl, ?_⟩
  intro h
  exact DType.noConfusion h

/-- C7 (amended): `neg` and `invert` pass shape and dtype through unchanged
(`invert` requiring boolean dtype); `abs` passes the shape through unchanged
and passes the dtype through unchanged except on complex inputs, where
complex64 yields float32 and complex128 yields float64. -/
theorem unary_pass_through_spec :
    (∀ (x : Tensor) (i : Nat) (op : Operation) (out : Tensor),
      TF.abs x i = .ok (op, out) →
        out.shape = x.shape ∧ out.dtype = absOutDType x.dtype ∧ op.inputs = [x]) ∧
    (∀ d : DType, d ≠ DType.complex64 → d ≠ DType.complex128 → absOutDType d = d) ∧
    (absOutDType .complex64 = .float32 ∧ absOutDType .complex128 = .float64) ∧
    (∀ (x : Tensor) (i : Nat) (op : Operation) (out : Tensor),
      neg x i = .ok (op, out) →
        out.shape = x.shape ∧ out.dtype = x.dtype ∧ op.inputs = [x]) ∧
    (∀ (x : Tensor) (i : Nat) (op : Operation) (out : Tensor),
      invert x i = .ok (op, out) →
        out.shape = x.shape ∧ out.dtype = x.dtype ∧ x.dtype = DType.bool ∧
          op.inputs = [x]) ∧
    (∀ (x : Tensor) (i : Nat), x.dtype ≠ DType.bool →
      invert x i = .error TfError.typeError) := by
  refine ⟨?_, ?_, ⟨rfl, rfl⟩, ?_, ?_, ?_⟩
  · intro x i op out h
    simp only [TF.abs] at h
    split at h
    · rcases h with ⟨⟩
      exact ⟨rfl, rfl, rfl⟩
    · exact Except.noConfusion h
  · intro d h64 h128
    rcases d <;> first | rfl | exact absurd rfl h64 | exact absurd rfl h128
  · intro x i op out h
    simp only [neg] at h
    split at h
    · rcases h with ⟨⟩
      exact ⟨rfl, rfl, rfl⟩
    · exact Except.noConfusion h
  · intro x i op out h
    simp only [invert] at h
    split at h
    · rcases h with ⟨⟩
      rename_i hb
      exact ⟨rfl, rfl, hb, rfl⟩
    · exact Except.noConfusion h
  · intro x i h
    simp only [invert, if_neg h]

/-- C7 witness: `neg tx 9` succeeds and preserves shape and dtype. -/
theorem unary_pass_through_spec_witness :
    outExNeg.shape = tx.shape ∧ outExNeg.dtype = tx.dtype ∧ opExNeg.inputs = [tx] :=
  unary_pass_through_spec.2.2.2.1 tx 9 opExNeg outExNeg rfl

/-- C8: handle equality `eq` is a pure structural-identity test returning a
boolean: it is true exactly when the two handles reference the same
producing operation, the same valueIndex and the same graph; it is
reflexive; and two handles from different Operations compare false even
with identical shape and dtype. -/
theorem handle_eq_spec :
    (∀ x y : Tensor, eq x y = true ↔
      (x.opId = y.opId ∧ x.valueIndex = y.valueIndex ∧ x.graph = y.graph)) ∧
    (∀ x : Tensor, eq x x = true) ∧
    (eq tx ty = false ∧ tx.dtype = ty.dtype ∧ tx.shape = ty.shape) := by
  have hiff : ∀ x y : Tensor, eq x y = true ↔
      (x.opId = y.opId ∧ x.valueIndex = y.valueIndex ∧ x.graph = y.graph) := by
    intro x y
    simp [eq, Bool.and_eq_true, decide_eq_true_iff, and_assoc]
  exact ⟨hiff, fun x => (hiff x x).mpr ⟨rfl, rfl, rfl⟩, by decide, rfl, rfl⟩

/-- C8 witness: `eq` is true on a handle compared with itself. -/
theorem handle_eq_spec_witness : eq tx tx = true :=
  handle_eq_spec.2.1 tx

/-- C9: requesting transpose and adjoint together for the same operand of
`matMul` (or `rMatMul`) fails with `InvalidArgument`, at the operation level
and at the shape-computation level. -/
theorem transpose_adjoint_exclusive_spec :
    (∀ (x y : Tensor) (tB aB asp bsp : Bool) (i : Nat),
      matMul x y true tB true aB asp bsp i = .error TfError.invalidArgument) ∧
    (∀ (x y : Tensor) (tA aA asp bsp : Bool) (i : Nat),
      matMul x y tA true aA true asp bsp i = .error TfError.invalidArgument) ∧
    (∀ (x y : Tensor) (tB aB asp bsp : Bool) (i : Nat),
      rMatMul x y true tB true aB asp bsp i = .error TfError.invalidArgument) ∧
    (∀ (x y : Tensor) (tA aA asp bsp : Bool) (i : Nat),
      rMatMul x y tA true aA true asp bsp i = .error TfError.invalidArgument) ∧
    (∀ (sx sy : TensorShape) (tB aB : Bool),
      matMulShape sx sy true tB true aB = .error TfError.invalidArgument) ∧
    (∀ (sx sy : TensorShape) (tA aA : Bool),
      matMulShape sx sy tA true aA true = .error TfError.invalidArgument) := by
  have hm2 : ∀ (x y : Tensor) (tA aA asp bsp : Bool) (i : Nat),
      matMul x y tA true aA true asp bsp i = .error TfError.invalidArgument := by
    intro x y tA aA asp bsp i
    cases tA <;> cases aA <;> simp [matMul]
  have hm1 : ∀ (x y : Tensor) (tB aB asp bsp : Bool) (i : Nat),
      matMul x y true tB true aB asp bsp i = .error TfError.invalidArgument := by
    intro x y tB aB asp bsp i
    simp [matMul]
  have hs2 : ∀ (sx sy : TensorShape) (tA aA : Bool),
      matMulShape sx sy tA true aA true = .error TfError.invalidArgument := by
    intro sx sy tA aA
    cases tA <;> cases aA <;> simp [matMulShape]
  have hs1 : ∀ (sx sy : TensorShape) (tB aB : Bool),
      matMulShape sx sy true tB true aB = .error TfError.invalidArgument := by
    intro sx sy tB aB
    simp [matMulShape]
  exact ⟨hm1, hm2, fun x y tB aB asp bsp i => hm1 x y tB aB asp bsp i,
    fun x y tA aA asp bsp i => hm2 x y tA aA asp bsp i, hs1, hs2⟩

/-- C10: at the public interface, `eval` takes its feed dictionary as an
array of Tensors and returns an array of Tensors - not a mapping from
Tensors to concrete feed values, and not an array of concrete values. -/
theorem eval_signature_spec :
    evalParamTypes.head? = some (TSType.arrayOf TSType.tensor) ∧
    evalReturnType = TSType.arrayOf TSType.tensor ∧
    (∀ k v : TSType, evalParamTypes.head? ≠ some (TSType.mapOf k v)) ∧
    evalReturnType ≠ TSType.arrayOf TSType.value := by
  refine ⟨rfl, rfl, ?_, by decide⟩
  intro k v h
  simp only [evalParamTypes, List.head?_cons, Option.some.injEq] at h
  exact TSType.noConfusion h

/-- C10 witness: the feed-dictionary parameter type is not a map from
Tensors to values. -/
theorem eval_signature_spec_witness :
    evalParamTypes.head? ≠ some (TSType.mapOf TSType.tensor TSType.value) :=
  eval_signature_spec.2.2.1 TSType.tensor TSType.value

/-- A list of length at most one reverses to the empty list or to a
singleton. -/
theorem reverse_short_of_length_lt_two {α : Type} (l : List α) (h : l.length < 2) :
    l.reverse = [] ∨ ∃ a, l.reverse = [a] := by
  rcases l with _ | ⟨a, _ | ⟨b, t⟩⟩
  · exact Or.inl rfl
  · exact Or.inr ⟨a, rfl⟩
  · simp at h
    omega

/-- C4: `matMul`'s shape computation fails with `RankError` when either
known-rank input has rank less than two, for every valid flag combination;
on rank-2-or-more inputs, the batch dimensions must broadcast (their
incompatibility surfaces as the broadcast's `ShapeMismatch`), the inner
contraction dimension of `x` must match the inner dimension of `y` (else
`ShapeMismatch`), and on success the output shape is the broadcast batch
followed by `[rowsOfX, colsOfY]`; requesting transpose or adjoint for an
operand is the same as swapping that operand's last two dimensions first,
which reduces every flagged call to the unflagged characterisation in
post-transpose/adjoint orientation; shapes [2,3,4] and [2,4,5] yield
[2,3,5], while [2,3,4] and [3,4,5] fail with `ShapeMismatch`, and the
transposed examples orient as claimed; a successful `matMul` call's output
Tensor carries exactly the computed shape with inputs `[x, y]`; `rMatMul`
behaves as `matMul`. -/
theorem matMul_shape_spec :
    (∀ (lx ly : List (Option Nat)) (tA tB aA aB : Bool),
      (tA && aA) = false → (tB && aB) = false → lx.length < 2 →
      matMulShape ⟨some lx⟩ ⟨some ly⟩ tA tB aA aB = .error TfError.rankError) ∧
    (∀ (lx ly : List (Option Nat)) (tA tB aA aB : Bool),
      (tA && aA) = false → (tB && aB) = false → ly.length < 2 →
      matMulShape ⟨some lx⟩ ⟨some ly⟩ tA tB aA aB = .error TfError.rankError) ∧
    (∀ (bxRev byRev batchRev : List (Option Nat)) (rx cx ry cy m : Option Nat),
      broadcastDimsRev bxRev byRev = .ok batchRev →
      mergeDim cx ry = .ok m →
      matMulShape ⟨some ((cx :: rx :: bxRev).reverse)⟩
          ⟨some ((cy :: ry :: byRev).reverse)⟩ false false false false =
        .ok ⟨some (batchRev.reverse ++ [rx, cy])⟩) ∧
    (∀ (bxRev byRev : List (Option Nat)) (rx cx ry cy : Option Nat) (e : TfError),
      broadcastDimsRev bxRev byRev = .error e →
      matMulShape ⟨some ((cx :: rx :: bxRev).reverse)⟩
          ⟨some ((cy :: ry :: byRev).reverse)⟩ false false false false = .error e) ∧
    (∀ (bxRev byRev batchRev : List (Option Nat)) (rx cx ry cy : Option Nat),
      broadcastDimsRev bxRev byRev = .ok batchRev →
      mergeDim cx ry = .error TfError.shapeMismatch →
      matMulShape ⟨some ((cx :: rx :: bxRev).reverse)⟩
          ⟨some ((cy :: ry :: byRev).reverse)⟩ false false false false =
        .error TfError.shapeMismatch) ∧
    (∀ (bxRev : List (Option Nat)) (rx cx : Option Nat) (sy : TensorShape) (tB aB : Bool),
      matMulShape ⟨some ((cx :: rx :: bxRev).reverse)⟩ sy true tB false aB =
        matMulShape ⟨some ((rx :: cx :: bxRev).reverse)⟩ sy false tB false aB) ∧
    (∀ (bxRev : List (Option Nat)) (rx cx : Option Nat) (sy : TensorShape) (tB aB : Bool),
      matMulShape ⟨some ((cx :: rx :: bxRev).reverse)⟩ sy false tB true aB =
        matMulShape ⟨some ((rx :: cx :: bxRev).reverse)⟩ sy false tB false aB) ∧
    (∀ (byRev : List (Option Nat)) (ry cy : Option Nat) (sx : TensorShape) (tA aA : Bool),
      matMulShape sx ⟨some ((cy :: ry :: byRev).reverse)⟩ tA true aA false =
        matMulShape sx ⟨some ((ry :: cy :: byRev).reverse)⟩ tA false aA false) ∧
    (∀ (byRev : List (Option Nat)) (ry cy : Option Nat) (sx : TensorShape) (tA aA : Bool),
      matMulShape sx ⟨some ((cy :: ry :: byRev).reverse)⟩ tA false aA true =
        matMulShape sx ⟨some ((ry :: cy :: byRev).reverse)⟩ tA false aA false) ∧
    (matMulShape ⟨some [some 2, some 3, some 4]⟩ ⟨some [some 2, some 4, some 5]⟩
        false false false false = .ok ⟨some [some 2, some 3, some 5]⟩) ∧
    (matMulShape ⟨some [some 2, some 3, some 4]⟩ ⟨some [some 3, some 4, some 5]⟩
        false false false false = .error TfError.shapeMismatch) ∧
    (matMulShape ⟨some [some 2, some 3, some 4]⟩ ⟨some [some 2, some 3, some 5]⟩
        true false false false = .ok ⟨some [some 2, some 4, some 5]⟩) ∧
    (matMulShape ⟨some [some 2, some 3, some 4]⟩ ⟨some [some 2, some 5, some 4]⟩
        false true false false = .ok ⟨some [some 2, some 3, some 5]⟩) ∧
    (∀ (x y : Tensor) (tA tB aA aB asp bsp : Bool) (i : Nat) (op : Operation)
        (out : Tensor),
      matMul x y tA tB aA aB asp bsp i = .ok (op, out) →
      matMulShape x.shape y.shape tA tB aA aB = .ok out.shape ∧ op.inputs = [x, y]) ∧
    (∀ (x y : Tensor) (tA tB aA aB asp bsp : Bool) (i : Nat),
      rMatMul x y tA tB aA aB asp bsp i = matMul x y tA tB aA aB asp bsp i) := by
  refine ⟨?_, ?_, ?_, ?_, ?_, ?_, ?_, ?_, ?_, rfl, rfl, rfl, rfl, ?_,
    fun _ _ _ _ _ _ _ _ _ => rfl⟩
  · intro lx ly tA tB aA aB hA hB h
    rcases reverse_short_of_length_lt_two lx h with h0 | ⟨a, h0⟩ <;>
      simp [matMulShape, h0, hA, hB]
  · intro lx ly tA tB aA aB hA hB h
    rcases reverse_short_of_length_lt_two ly h with h0 | ⟨a, h0⟩ <;>
      rcases hx : lx.reverse with _ | ⟨p, _ | ⟨q, t⟩⟩ <;>
        simp [matMulShape, h0, hx, hA, hB]
  · intro bxRev byRev batchRev rx cx ry cy m h1 h2
    simp [matMulShape, h1, h2]
  · intro bxRev byRev rx cx ry cy e h1
    simp [matMulShape, h1]
  · intro bxRev byRev batchRev rx cx ry cy h1 h2
    simp [matMulShape, h1, h2]
  · intro bxRev rx cx sy tB aB
    rcases sy with ⟨_ | ly⟩
    · cases tB <;> cases aB <;> simp [matMulShape]
    · rcases hy : ly.reverse with _ | ⟨u, _ | ⟨v, tl⟩⟩ <;>
        cases tB <;> cases aB <;> simp [matMulShape, hy]
  · intro bxRev rx cx sy tB aB
    rcases sy with ⟨_ | ly⟩
    · cases tB <;> cases aB <;> simp [matMulShape]
    · rcases hy : ly.reverse with _ | ⟨u, _ | ⟨v, tl⟩⟩ <;>
        cases tB <;> cases aB <;> simp [matMulShape, hy]
  · intro byRev ry cy sx tA aA
    rcases sx with ⟨_ | lx⟩
    · cases tA <;> cases aA <;> simp [matMulShape]
    · rcases hx : lx.reverse with _ | ⟨p, _ | ⟨q, tl⟩⟩ <;>
        cases tA <;> cases aA <;> simp [matMulShape, hx]
  · intro byRev ry cy sx tA aA
    rcases sx with ⟨_ | lx⟩
    · cases tA <;> cases aA <;> simp [matMulShape]
    · rcases hx : lx.reverse with _ | ⟨p, _ | ⟨q, tl⟩⟩ <;>
        cases tA <;> cases aA <;> simp [matMulShape, hx]
  · intro x y tA tB aA aB asp bsp i op out h
    simp only [matMul] at h
    split at h
    · exact Except.noConfusion h
    · split at h
      · exact Except.noConfusion h
      · split at h
        · exact Except.noConfusion h
        · split at h
          · exact Except.noConfusion h
          · split at h
            · exact Except.noConfusion h
            · split at h
              · exact Except.noConfusion h
              · rcases h with ⟨⟩
                rename_i s hs
                exact ⟨hs, rfl⟩

/-- C4 witness: batch [2] broadcasts with batch [2] and inner dimension 4
matches inner dimension 4, so the post-orientation shapes reversed from
[4, 3, 2] and [5, 4, 2] multiply to batch [2] with rows 3 and cols 5. -/
theorem matMul_shape_spec_witness :
    matMulShape ⟨some (((some 4 : Option Nat) :: some 3 :: [some 2]).reverse)⟩
        ⟨some (((some 5 : Option Nat) :: some 4 :: [some 2]).reverse)⟩
        false false false false =
      .ok ⟨some (([some 2] : List (Option Nat)).reverse ++ [some 3, some 5])⟩ :=
  matMul_shape_spec.2.2.1 [some 2] [some 2] [some 2] (some 3) (some 4) (some 4)
    (some 5) (some 4) rfl rfl

end TF
